import Mathlib

/-!
Verification of the AudiDesk lock-free audio ring buffer
(`src/AudiDeckDriver/AudioRingBuffer.c`, `AudioRingBuffer.hpp`, and the
driver-internal `RingBuffer` class in `AudiDeckDriver.cpp`) against its
design specification.

Modelling conventions:
* Samples are `float` values that the code only ever copies verbatim or
  zeroes (no arithmetic is performed on them), so they are modelled as `Int`;
  digital silence `0.0f` is modelled as `0`.
* The two cursors are `uint64_t` and, per the design, monotonically
  increasing and never wrapped, so they are modelled as `Nat`; the
  `(uint32_t)` casts and `uint32_t` subtractions of the code are kept
  explicit as `% 2 ^ 32` arithmetic.
* The sample store and the caller-supplied sample arrays are modelled as
  total functions `Nat → Int` (C pointers into caller memory); a store
  update loop becomes a function override on exactly the indices the loop
  writes.
* Nullable pointers of the C interface are modelled with `Option`; the
  bodies that run after the null guards are factored into `writeOp`,
  `readOp`, `peekOp`, `skipOp` exactly as they appear in the source.
-/

/-- State of an `AudioRingBuffer` (struct in `AudioRingBuffer.h`):
`bufferSize` frames of `channelCount` interleaved samples, plus the two
monotone frame cursors `writeIndex` and `readIndex` (uint64, never wrapped). -/
structure AudioRingBuffer where
  bufferSize : Nat
  channelCount : Nat
  buf : Nat → Int
  writeIndex : Nat
  readIndex : Nat

/-- The capacity round-up loop of `AudioRingBuffer_Create` (and, identically,
of the `AudioRingBuffer.hpp` constructor):
`p = 1; while (p < n) p <<= 1;` — fuelled with `n` steps, which always
suffices since `n ≤ 2 ^ n`.  The C loop runs on `uint32_t`, so this model is
faithful for requests up to `2 ^ 31`. -/
def pow2Loop : Nat → Nat → Nat → Nat
  | 0, _, p => p
  | fuel + 1, n, p => if p < n then pow2Loop fuel n (p <<< 1) else p

def roundUpPow2 (bufferSizeFrames : Nat) : Nat :=
  pow2Loop bufferSizeFrames bufferSizeFrames 1

/-- `AudioRingBuffer_Create` (success path): capacity rounded up to a power
of two, zero-initialised (`calloc`) store, both cursors 0. -/
def AudioRingBuffer_Create (bufferSizeFrames channelCount : Nat) : AudioRingBuffer :=
  let powerOf2Size := roundUpPow2 bufferSizeFrames
  { bufferSize := powerOf2Size
    channelCount := channelCount
    buf := fun _ => 0
    writeIndex := 0
    readIndex := 0 }

/-- `AudioRingBuffer_GetAvailableFrames` on a non-null buffer:
`(uint32_t)(writeIdx - readIdx)` on the uint64 cursors. -/
def availableFrames (b : AudioRingBuffer) : Nat :=
  (b.writeIndex - b.readIndex) % 2 ^ 32

/-- `AudioRingBuffer_GetFreeFrames` on a non-null buffer:
`bufferSize - available` as `uint32_t` subtraction. -/
def freeFrames (b : AudioRingBuffer) : Nat :=
  (b.bufferSize + 2 ^ 32 - availableFrames b) % 2 ^ 32

/-- The store-update loop of `AudioRingBuffer_Write`: for each frame
`i < framesToWrite` the inner channel loop writes exactly the sample indices
`idx` with `idx / channelCount = (writeIdx + i) &&& bufferMask`, the value
being `data[i * channelCount + (idx % channelCount)]`. -/
def writeFrames (cc mask writeIdx : Nat) (data buf : Nat → Int) : Nat → Nat → Int
  | 0 => buf
  | i + 1 => fun idx =>
      if idx / cc = (writeIdx + i) &&& mask then data (i * cc + idx % cc)
      else writeFrames cc mask writeIdx data buf i idx

/-- Body of `AudioRingBuffer_Write` after the null/zero guard. -/
def writeOp (b : AudioRingBuffer) (data : Nat → Int) (frameCount : Nat) :
    Nat × AudioRingBuffer :=
  let freeF := freeFrames b
  let framesToWrite := if frameCount < freeF then frameCount else freeF
  if framesToWrite = 0 then (0, b)
  else
    let bufferMask := b.bufferSize - 1
    (framesToWrite,
      { b with
        buf := writeFrames b.channelCount bufferMask b.writeIndex data b.buf framesToWrite
        writeIndex := b.writeIndex + framesToWrite })

/-- The copy-out loop shared by `AudioRingBuffer_Read` and
`AudioRingBuffer_Peek`: for each frame `i < framesToRead` the inner channel
loop writes exactly the output indices `idx` with `idx / channelCount = i`,
the value being `buffer[((readIdx + i) &&& mask) * channelCount + (idx % channelCount)]`. -/
def readFrames (cc mask readIdx : Nat) (buf data : Nat → Int) : Nat → Nat → Int
  | 0 => data
  | i + 1 => fun idx =>
      if idx / cc = i then buf (((readIdx + i) &&& mask) * cc + idx % cc)
      else readFrames cc mask readIdx buf data i idx

/-- `memset(data + start, 0, count * sizeof(float))`, elementwise. -/
def silenceFill (start count : Nat) (data : Nat → Int) : Nat → Int :=
  fun idx => if start ≤ idx ∧ idx < start + count then 0 else data idx

/-- Body of `AudioRingBuffer_Read` after the null/zero guard; returns the
frame count, the caller's output array after the call, and the new state. -/
def readOp (b : AudioRingBuffer) (data : Nat → Int) (frameCount : Nat) :
    Nat × (Nat → Int) × AudioRingBuffer :=
  let avail := availableFrames b
  let framesToRead := if frameCount < avail then frameCount else avail
  if framesToRead = 0 then
    (0, silenceFill 0 (frameCount * b.channelCount) data, b)
  else
    let bufferMask := b.bufferSize - 1
    let copied := readFrames b.channelCount bufferMask b.readIndex b.buf data framesToRead
    let filled :=
      if framesToRead < frameCount then
        silenceFill (framesToRead * b.channelCount)
          ((frameCount - framesToRead) * b.channelCount) copied
      else copied
    (framesToRead, filled, { b with readIndex := b.readIndex + framesToRead })

/-- Body of `AudioRingBuffer_Peek` after the null/zero guard: same copy loop
as read, no cursor advance, no silence fill; the state is returned unchanged
(the function never stores to the buffer). -/
def peekOp (b : AudioRingBuffer) (data : Nat → Int) (frameCount : Nat) :
    Nat × (Nat → Int) × AudioRingBuffer :=
  let avail := availableFrames b
  let framesToPeek := if frameCount < avail then frameCount else avail
  if framesToPeek = 0 then (0, data, b)
  else
    (framesToPeek,
      readFrames b.channelCount (b.bufferSize - 1) b.readIndex b.buf data framesToPeek, b)

/-- Body of `AudioRingBuffer_Skip` after the null/zero guard. -/
def skipOp (b : AudioRingBuffer) (frameCount : Nat) : AudioRingBuffer :=
  let avail := availableFrames b
  let framesToSkip := if frameCount < avail then frameCount else avail
  if 0 < framesToSkip then { b with readIndex := b.readIndex + framesToSkip } else b

/-- `AudioRingBuffer_Reset` on a non-null buffer: both cursors to 0 and
`memset` of the `bufferSize * channelCount` store samples to 0. -/
def resetOp (b : AudioRingBuffer) : AudioRingBuffer :=
  { b with
    writeIndex := 0
    readIndex := 0
    buf := fun idx => if idx < b.bufferSize * b.channelCount then 0 else b.buf idx }

/-- `AudioRingBuffer_Write` with its guard
`if (!buffer || !data || frameCount == 0) return 0;`. -/
def AudioRingBuffer_Write (buffer : Option AudioRingBuffer) (data : Option (Nat → Int))
    (frameCount : Nat) : Nat × Option AudioRingBuffer :=
  match buffer, data with
  | some b, some d =>
      if frameCount = 0 then (0, some b)
      else
        let r := writeOp b d frameCount
        (r.1, some r.2)
  | _, _ => (0, buffer)

/-- `AudioRingBuffer_Read` with its guard. -/
def AudioRingBuffer_Read (buffer : Option AudioRingBuffer) (data : Option (Nat → Int))
    (frameCount : Nat) : Nat × Option (Nat → Int) × Option AudioRingBuffer :=
  match buffer, data with
  | some b, some d =>
      if frameCount = 0 then (0, some d, some b)
      else
        let r := readOp b d frameCount
        (r.1, some r.2.1, some r.2.2)
  | _, _ => (0, data, buffer)

/-- `AudioRingBuffer_Peek` with its guard. -/
def AudioRingBuffer_Peek (buffer : Option AudioRingBuffer) (data : Option (Nat → Int))
    (frameCount : Nat) : Nat × Option (Nat → Int) × Option AudioRingBuffer :=
  match buffer, data with
  | some b, some d =>
      if frameCount = 0 then (0, some d, some b)
      else
        let r := peekOp b d frameCount
        (r.1, some r.2.1, some r.2.2)
  | _, _ => (0, data, buffer)

/-- `AudioRingBuffer_Skip` with its guard
`if (!buffer || frameCount == 0) return;`. -/
def AudioRingBuffer_Skip (buffer : Option AudioRingBuffer) (frameCount : Nat) :
    Option AudioRingBuffer :=
  match buffer with
  | some b => if frameCount = 0 then some b else some (skipOp b frameCount)
  | none => none

/-- Driver-internal `RingBuffer` of `AudiDeckDriver.cpp`. -/
structure RingBuffer where
  mFrames : Nat
  mChannels : Nat
  mBuffer : Nat → Int
  mWritePos : Nat
  mReadPos : Nat

/-- `RingBuffer::RingBuffer(frames, channels)` from `AudiDeckDriver.cpp`,
lines 49–52: stores the requested frame count unchanged (no power-of-two
round-up) and zero-initialises the store (`new float[...]()`). -/
def RingBuffer.create (frames channels : Nat) : RingBuffer :=
  { mFrames := frames
    mChannels := channels
    mBuffer := fun _ => 0
    mWritePos := 0
    mReadPos := 0 }

/-- State of the `AudioRingBuffer` C++ class of `AudioRingBuffer.hpp`. -/
structure AudioRingBufferClass where
  mBuffer : Nat → Int
  mBufferSize : Nat
  mBufferMask : Nat
  mChannelCount : Nat
  mWriteIndex : Nat
  mReadIndex : Nat

/-- The `AudioRingBuffer.hpp` constructor: the same `size = 1; while
(size < bufferSizeFrames) size <<= 1;` round-up loop as the C create
(embedded once as `roundUpPow2`), zeroed store, cursors 0. -/
def AudioRingBufferClass.create (bufferSizeFrames channelCount : Nat) :
    AudioRingBufferClass :=
  let size := roundUpPow2 bufferSizeFrames
  { mBuffer := fun _ => 0
    mBufferSize := size
    mBufferMask := size - 1
    mChannelCount := channelCount
    mWriteIndex := 0
    mReadIndex := 0 }

/-- Well-formedness of a buffer state, as established by
`AudioRingBuffer_Create` and preserved by every operation: cursors ordered,
at most `bufferSize` pending frames, `bufferSize` a power of two that fits
in `uint32_t`. -/
def wf (b : AudioRingBuffer) : Prop :=
  b.readIndex ≤ b.writeIndex ∧
  b.writeIndex - b.readIndex ≤ b.bufferSize ∧
  roundUpPow2 b.bufferSize = b.bufferSize ∧
  b.bufferSize < 2 ^ 32

instance (b : AudioRingBuffer) : Decidable (wf b) := by
  unfold wf; infer_instance

/-- The `i`-th oldest pending (written, not yet consumed) frame's sample for
channel `ch`: what the store holds at ring position `(readIndex + i) mod
capacity`. -/
def pendingSample (b : AudioRingBuffer) (i ch : Nat) : Int :=
  b.buf (((b.readIndex + i) &&& (b.bufferSize - 1)) * b.channelCount + ch)

/-- One reader/consumer-visible operation of the C interface (create is the
initial state, handled separately). -/
inductive RBOp where
  | write (data : Nat → Int) (frameCount : Nat)
  | read (frameCount : Nat)
  | peek (frameCount : Nat)
  | skip (frameCount : Nat)
  | reset

def applyOp (b : AudioRingBuffer) : RBOp → AudioRingBuffer
  | .write data n => (writeOp b data n).2
  | .read n => (readOp b (fun _ => 0) n).2.2
  | .peek n => (peekOp b (fun _ => 0) n).2.2
  | .skip n => skipOp b n
  | .reset => resetOp b

def runOps (b : AudioRingBuffer) (ops : List RBOp) : AudioRingBuffer :=
  ops.foldl applyOp b

/-! ### Properties of the capacity round-up loop -/

theorem pow2Loop_ge (fuel : Nat) : ∀ n p : Nat, n ≤ p * 2 ^ fuel → n ≤ pow2Loop fuel n p := by
  induction fuel with
  | zero => intro n p h; simpa using h
  | succ fuel ih =>
    intro n p h
    unfold pow2Loop
    split
    · apply ih
      rw [Nat.shiftLeft_eq]
      calc n ≤ p * 2 ^ (fuel + 1) := h
        _ = p * 2 ^ 1 * 2 ^ fuel := by ring
    · omega

theorem pow2Loop_shape (fuel : Nat) :
    ∀ n p : Nat, ∃ k, pow2Loop fuel n p = p * 2 ^ k ∧ (k = 0 ∨ p * 2 ^ (k - 1) < n) := by
  induction fuel with
  | zero => intro n p; exact ⟨0, by simp [pow2Loop], Or.inl rfl⟩
  | succ fuel ih =>
    intro n p
    unfold pow2Loop
    split
    · obtain ⟨k, hk, hmin⟩ := ih n (p <<< 1)
      refine ⟨k + 1, ?_, Or.inr ?_⟩
      · rw [hk, Nat.shiftLeft_eq]; ring
      · rcases hmin with h0 | hlt
        · subst h0; simpa using ‹p < n›
        · have : p <<< 1 * 2 ^ (k - 1) = p * 2 ^ 1 * 2 ^ (k - 1) := by
            rw [Nat.shiftLeft_eq]
          rcases Nat.eq_zero_or_pos k with hk0 | hkpos
          · subst hk0; simpa using ‹p < n›
          · have hrw : p * 2 ^ (k + 1 - 1) = p <<< 1 * 2 ^ (k - 1) := by
              rw [Nat.shiftLeft_eq]
              have : k + 1 - 1 = 1 + (k - 1) := by omega
              rw [this, pow_add]
              ring
            omega
    · exact ⟨0, by simp, Or.inl rfl⟩

theorem roundUpPow2_pow (n : Nat) : ∃ k, roundUpPow2 n = 2 ^ k := by
  obtain ⟨k, hk, -⟩ := pow2Loop_shape n n 1
  exact ⟨k, by simpa [roundUpPow2] using hk⟩

theorem roundUpPow2_ge (n : Nat) : n ≤ roundUpPow2 n := by
  apply pow2Loop_ge
  simpa using (Nat.lt_two_pow n).le

theorem roundUpPow2_pos (n : Nat) : 0 < roundUpPow2 n := by
  obtain ⟨k, hk⟩ := roundUpPow2_pow n
  rw [hk]; exact Nat.pos_pow_of_pos k (by omega)

theorem roundUpPow2_min (n j : Nat) (h : n ≤ 2 ^ j) : roundUpPow2 n ≤ 2 ^ j := by
  obtain ⟨k, hk, hmin⟩ := pow2Loop_shape n n 1
  have hk' : roundUpPow2 n = 2 ^ k := by simpa [roundUpPow2] using hk
  rw [hk']
  rcases hmin with h0 | hlt
  · subst h0; simpa using Nat.one_le_two_pow
  · have h1 : (2 : Nat) ^ (k - 1) < 2 ^ j := by omega
    have h2 : k - 1 < j := (Nat.pow_lt_pow_iff_right (by omega)).mp h1
    exact Nat.pow_le_pow_right (by omega) (by omega)

theorem roundUpPow2_two_pow (k : Nat) : roundUpPow2 (2 ^ k) = 2 ^ k :=
  Nat.le_antisymm (roundUpPow2_min _ k le_rfl) (roundUpPow2_ge _)

theorem roundUpPow2_fixed (n : Nat) (h : roundUpPow2 n = n) : ∃ k, n = 2 ^ k := by
  obtain ⟨k, hk⟩ := roundUpPow2_pow n
  exact ⟨k, by omega⟩

/-! ### Modular-index arithmetic -/

theorem mod_inj_of_lt {s w a b : Nat} (ha : a < s) (hb : b < s)
    (h : (w + a) % s = (w + b) % s) : a = b := by
  have h1 : a ≡ b [MOD s] := Nat.ModEq.add_left_cancel' w h
  have h2 : a % s = b % s := h1
  rwa [Nat.mod_eq_of_lt ha, Nat.mod_eq_of_lt hb] at h2

theorem mod_inj_interval {s base a b : Nat} (ha1 : base ≤ a) (ha2 : a < base + s)
    (hb1 : base ≤ b) (hb2 : b < base + s) (h : a % s = b % s) : a = b := by
  have ha : a = base + (a - base) := by omega
  have hb : b = base + (b - base) := by omega
  rw [ha, hb] at h
  have := mod_inj_of_lt (by omega) (by omega) h
  omega

theorem frame_index_div {cc : Nat} (i ch : Nat) (h : ch < cc) : (i * cc + ch) / cc = i := by
  rw [Nat.mul_comm i cc, Nat.mul_add_div (by omega), Nat.div_eq_of_lt h, Nat.add_zero]

theorem frame_index_mod {cc : Nat} (i ch : Nat) (h : ch < cc) : (i * cc + ch) % cc = ch := by
  rw [Nat.mul_comm i cc, Nat.mul_add_mod, Nat.mod_eq_of_lt h]

theorem frame_index_lt {cc : Nat} (i ch t : Nat) (hi : i < t) (hch : ch < cc) :
    i * cc + ch < t * cc := by
  calc i * cc + ch < i * cc + cc := by omega
    _ = (i + 1) * cc := by ring
    _ ≤ t * cc := Nat.mul_le_mul_right cc hi

theorem and_mask_eq_mod {s : Nat} (hs : ∃ k, s = 2 ^ k) (x : Nat) : x &&& (s - 1) = x % s := by
  obtain ⟨k, rfl⟩ := hs
  exact Nat.and_pow_two_sub_one_eq_mod x k

/-! ### Effect of the copy loops -/

theorem writeFrames_hit {cc s widx : Nat} (data buf : Nat → Int) (hs : ∃ k, s = 2 ^ k)
    {n : Nat} (hn : n ≤ s) {i ch : Nat} (hi : i < n) (hch : ch < cc) :
    writeFrames cc (s - 1) widx data buf n ((widx + i) % s * cc + ch) = data (i * cc + ch) := by
  induction n with
  | zero => omega
  | succ m ih =>
    have hspos : 0 < s := by
      obtain ⟨k, rfl⟩ := hs; exact Nat.pos_pow_of_pos k (by omega)
    unfold writeFrames
    rw [and_mask_eq_mod hs, frame_index_div _ _ hch]
    by_cases heq : i = m
    · subst heq
      rw [if_pos rfl, frame_index_mod _ _ hch]
    · have hne : (widx + i) % s ≠ (widx + m) % s := fun hmod =>
        heq (mod_inj_of_lt (by omega) (by omega) hmod)
      rw [if_neg hne]
      exact ih (by omega) (by omega)

theorem writeFrames_miss {cc s widx : Nat} (data buf : Nat → Int) (hs : ∃ k, s = 2 ^ k)
    {n idx : Nat} (hmiss : ∀ i, i < n → idx / cc ≠ (widx + i) % s) :
    writeFrames cc (s - 1) widx data buf n idx = buf idx := by
  induction n with
  | zero => rfl
  | succ m ih =>
    unfold writeFrames
    rw [and_mask_eq_mod hs, if_neg (hmiss m (by omega))]
    exact ih fun i hi => hmiss i (by omega)

theorem readFrames_hit {cc mask ridx : Nat} (buf data : Nat → Int) {n idx : Nat}
    (h : idx / cc < n) :
    readFrames cc mask ridx buf data n idx
      = buf (((ridx + idx / cc) &&& mask) * cc + idx % cc) := by
  induction n with
  | zero => exact absurd h (Nat.not_lt_zero _)
  | succ m ih =>
    unfold readFrames
    by_cases heq : idx / cc = m
    · rw [if_pos heq, heq]
    · rw [if_neg heq]
      exact ih (by omega)

theorem readFrames_miss {cc mask ridx : Nat} (buf data : Nat → Int) {n idx : Nat}
    (h : n ≤ idx / cc) :
    readFrames cc mask ridx buf data n idx = data idx := by
  induction n with
  | zero => rfl
  | succ m ih =>
    unfold readFrames
    rw [if_neg (by omega)]
    exact ih (by omega)

/-! ### Cursor bookkeeping -/

theorem availableFrames_eq {b : AudioRingBuffer} (hwf : wf b) :
    availableFrames b = b.writeIndex - b.readIndex := by
  obtain ⟨h1, h2, h3, h4⟩ := hwf
  unfold availableFrames
  omega

theorem freeFrames_eq {b : AudioRingBuffer} (hwf : wf b) :
    freeFrames b = b.bufferSize - (b.writeIndex - b.readIndex) := by
  obtain ⟨h1, h2, h3, h4⟩ := hwf
  unfold freeFrames availableFrames
  omega

theorem bufferSize_pow {b : AudioRingBuffer} (hwf : wf b) : ∃ k, b.bufferSize = 2 ^ k :=
  roundUpPow2_fixed _ hwf.2.2.1

theorem bufferSize_pos {b : AudioRingBuffer} (hwf : wf b) : 0 < b.bufferSize := by
  obtain ⟨k, hk⟩ := bufferSize_pow hwf
  rw [hk]; exact Nat.pos_pow_of_pos k (by omega)

/-! ### Characterization of `writeOp` -/

theorem writeOp_count (b : AudioRingBuffer) (data : Nat → Int) (n : Nat) :
    (writeOp b data n).1 = min n (freeFrames b) := by
  simp only [writeOp]
  split <;> split <;> simp <;> omega

theorem writeOp_writeIndex (b : AudioRingBuffer) (data : Nat → Int) (n : Nat) :
    (writeOp b data n).2.writeIndex = b.writeIndex + (writeOp b data n).1 := by
  simp only [writeOp]
  split <;> split <;> simp

theorem writeOp_readIndex (b : AudioRingBuffer) (data : Nat → Int) (n : Nat) :
    (writeOp b data n).2.readIndex = b.readIndex := by
  simp only [writeOp]
  split <;> split <;> simp

theorem writeOp_bufferSize (b : AudioRingBuffer) (data : Nat → Int) (n : Nat) :
    (writeOp b data n).2.bufferSize = b.bufferSize := by
  simp only [writeOp]
  split <;> split <;> simp

theorem writeOp_channelCount (b : AudioRingBuffer) (data : Nat → Int) (n : Nat) :
    (writeOp b data n).2.channelCount = b.channelCount := by
  simp only [writeOp]
  split <;> split <;> simp

theorem writeOp_buf (b : AudioRingBuffer) (data : Nat → Int) (n : Nat) :
    (writeOp b data n).2.buf
      = writeFrames b.channelCount (b.bufferSize - 1) b.writeIndex data b.buf
          (writeOp b data n).1 := by
  simp only [writeOp]
  split <;> split <;> simp [writeFrames]

/-! ### Characterization of `readOp`, `peekOp`, `skipOp`, `resetOp` -/

theorem silenceFill_zero (start : Nat) (data : Nat → Int) : silenceFill start 0 data = data := by
  funext idx
  simp only [silenceFill]
  rw [if_neg (by omega)]

theorem readOp_eq (b : AudioRingBuffer) (data : Nat → Int) (n : Nat) :
    readOp b data n =
      (min n (availableFrames b),
        silenceFill (min n (availableFrames b) * b.channelCount)
          ((n - min n (availableFrames b)) * b.channelCount)
          (readFrames b.channelCount (b.bufferSize - 1) b.readIndex b.buf data
            (min n (availableFrames b))),
        { b with readIndex := b.readIndex + min n (availableFrames b) }) := by
  have hmin : (if n < availableFrames b then n else availableFrames b)
      = min n (availableFrames b) := by
    split <;> omega
  simp only [readOp, hmin]
  split
  · rename_i h0
    rw [h0, Nat.zero_mul]
    rfl
  · rename_i h0
    split
    · rfl
    · have hmin2 : min n (availableFrames b) = n := by omega
      rw [hmin2, Nat.sub_self, Nat.zero_mul, silenceFill_zero]

theorem peekOp_eq (b : AudioRingBuffer) (data : Nat → Int) (n : Nat) :
    peekOp b data n =
      (min n (availableFrames b),
        readFrames b.channelCount (b.bufferSize - 1) b.readIndex b.buf data
          (min n (availableFrames b)), b) := by
  have hmin : (if n < availableFrames b then n else availableFrames b)
      = min n (availableFrames b) := by
    split <;> omega
  simp only [peekOp, hmin]
  split
  · rename_i h0
    rw [h0]
    rfl
  · rfl

theorem skipOp_eq (b : AudioRingBuffer) (n : Nat) :
    skipOp b n = { b with readIndex := b.readIndex + min n (availableFrames b) } := by
  have hmin : (if n < availableFrames b then n else availableFrames b)
      = min n (availableFrames b) := by
    split <;> omega
  simp only [skipOp, hmin]
  split
  · rfl
  · rename_i h0
    have h1 : min n (availableFrames b) = 0 := by omega
    rw [h1]
    rfl

theorem readOp_count (b : AudioRingBuffer) (data : Nat → Int) (n : Nat) :
    (readOp b data n).1 = min n (availableFrames b) := by
  rw [readOp_eq]

theorem readOp_readIndex (b : AudioRingBuffer) (data : Nat → Int) (n : Nat) :
    (readOp b data n).2.2.readIndex = b.readIndex + (readOp b data n).1 := by
  rw [readOp_eq]

theorem readOp_writeIndex (b : AudioRingBuffer) (data : Nat → Int) (n : Nat) :
    (readOp b data n).2.2.writeIndex = b.writeIndex := by
  rw [readOp_eq]

theorem readOp_bufferSize (b : AudioRingBuffer) (data : Nat → Int) (n : Nat) :
    (readOp b data n).2.2.bufferSize = b.bufferSize := by
  rw [readOp_eq]

theorem readOp_channelCount (b : AudioRingBuffer) (data : Nat → Int) (n : Nat) :
    (readOp b data n).2.2.channelCount = b.channelCount := by
  rw [readOp_eq]

theorem readOp_buf (b : AudioRingBuffer) (data : Nat → Int) (n : Nat) :
    (readOp b data n).2.2.buf = b.buf := by
  rw [readOp_eq]

theorem readOp_out_copied (b : AudioRingBuffer) (data : Nat → Int) (n : Nat)
    {i ch : Nat} (hi : i < min n (availableFrames b)) (hch : ch < b.channelCount) :
    (readOp b data n).2.1 (i * b.channelCount + ch) = pendingSample b i ch := by
  rw [readOp_eq]
  simp only [silenceFill]
  rw [if_neg ?later]
  case later =>
    have := frame_index_lt i ch (min n (availableFrames b)) hi hch
    omega
  rw [readFrames_hit _ _ (by rw [frame_index_div _ _ hch]; omega),
    frame_index_div _ _ hch, frame_index_mod _ _ hch]
  rfl

theorem readOp_out_fill (b : AudioRingBuffer) (data : Nat → Int) (n : Nat)
    {idx : Nat} (hlo : min n (availableFrames b) * b.channelCount ≤ idx)
    (hhi : idx < n * b.channelCount) :
    (readOp b data n).2.1 idx = 0 := by
  rw [readOp_eq]
  simp only [silenceFill]
  rw [if_pos ?later]
  case later =>
    refine ⟨hlo, ?_⟩
    have hsum : (min n (availableFrames b) + (n - min n (availableFrames b)))
        * b.channelCount = n * b.channelCount := by
      have : min n (availableFrames b) + (n - min n (availableFrames b)) = n := by omega
      rw [this]
    rw [Nat.add_mul] at hsum
    omega

theorem peekOp_count (b : AudioRingBuffer) (data : Nat → Int) (n : Nat) :
    (peekOp b data n).1 = min n (availableFrames b) := by
  rw [peekOp_eq]

theorem peekOp_state (b : AudioRingBuffer) (data : Nat → Int) (n : Nat) :
    (peekOp b data n).2.2 = b := by
  rw [peekOp_eq]

theorem peekOp_out_copied (b : AudioRingBuffer) (data : Nat → Int) (n : Nat)
    {i ch : Nat} (hi : i < min n (availableFrames b)) (hch : ch < b.channelCount) :
    (peekOp b data n).2.1 (i * b.channelCount + ch) = pendingSample b i ch := by
  rw [peekOp_eq]
  dsimp only
  rw [readFrames_hit _ _ (by rw [frame_index_div _ _ hch]; omega),
    frame_index_div _ _ hch, frame_index_mod _ _ hch]
  rfl

theorem peekOp_out_beyond (b : AudioRingBuffer) (data : Nat → Int) (n : Nat)
    (hcc : 0 < b.channelCount) {idx : Nat}
    (h : min n (availableFrames b) * b.channelCount ≤ idx) :
    (peekOp b data n).2.1 idx = data idx := by
  rw [peekOp_eq]
  apply readFrames_miss
  rw [Nat.le_div_iff_mul_le hcc]
  omega

theorem skipOp_readIndex (b : AudioRingBuffer) (n : Nat) :
    (skipOp b n).readIndex = b.readIndex + min n (availableFrames b) := by
  rw [skipOp_eq]

theorem skipOp_writeIndex (b : AudioRingBuffer) (n : Nat) :
    (skipOp b n).writeIndex = b.writeIndex := by
  rw [skipOp_eq]

theorem skipOp_bufferSize (b : AudioRingBuffer) (n : Nat) :
    (skipOp b n).bufferSize = b.bufferSize := by
  rw [skipOp_eq]

theorem skipOp_channelCount (b : AudioRingBuffer) (n : Nat) :
    (skipOp b n).channelCount = b.channelCount := by
  rw [skipOp_eq]

/-! ### Preservation of well-formedness -/

theorem wf_create (req cc : Nat) (hreq : req ≤ 2 ^ 31) : wf (AudioRingBuffer_Create req cc) := by
  obtain ⟨k, hk⟩ := roundUpPow2_pow req
  refine ⟨Nat.le_refl _, by simp [AudioRingBuffer_Create], ?_, ?_⟩
  · show roundUpPow2 (roundUpPow2 req) = roundUpPow2 req
    rw [hk, roundUpPow2_two_pow]
  · show roundUpPow2 req < 2 ^ 32
    have := roundUpPow2_min req 31 hreq
    omega

theorem wf_writeOp {b : AudioRingBuffer} (hwf : wf b) (data : Nat → Int) (n : Nat) :
    wf (writeOp b data n).2 := by
  obtain ⟨h1, h2, h3, h4⟩ := hwf
  have hfree := freeFrames_eq ⟨h1, h2, h3, h4⟩
  have hc := writeOp_count b data n
  have hw := writeOp_writeIndex b data n
  have hr := writeOp_readIndex b data n
  have hs := writeOp_bufferSize b data n
  exact ⟨by omega, by omega, by rw [hs]; exact h3, by omega⟩

theorem wf_readOp {b : AudioRingBuffer} (hwf : wf b) (data : Nat → Int) (n : Nat) :
    wf (readOp b data n).2.2 := by
  obtain ⟨h1, h2, h3, h4⟩ := hwf
  have havail := availableFrames_eq ⟨h1, h2, h3, h4⟩
  have hc := readOp_count b data n
  have hw := readOp_writeIndex b data n
  have hr := readOp_readIndex b data n
  have hs := readOp_bufferSize b data n
  exact ⟨by omega, by omega, by rw [hs]; exact h3, by omega⟩

theorem wf_peekOp {b : AudioRingBuffer} (hwf : wf b) (data : Nat → Int) (n : Nat) :
    wf (peekOp b data n).2.2 := by
  rw [peekOp_state]; exact hwf

theorem wf_skipOp {b : AudioRingBuffer} (hwf : wf b) (n : Nat) :
    wf (skipOp b n) := by
  obtain ⟨h1, h2, h3, h4⟩ := hwf
  have havail := availableFrames_eq ⟨h1, h2, h3, h4⟩
  have hr := skipOp_readIndex b n
  have hw := skipOp_writeIndex b n
  have hs := skipOp_bufferSize b n
  exact ⟨by omega, by omega, by rw [hs]; exact h3, by omega⟩

theorem wf_resetOp {b : AudioRingBuffer} (hwf : wf b) : wf (resetOp b) := by
  obtain ⟨h1, h2, h3, h4⟩ := hwf
  exact ⟨Nat.le_refl _, by simp [resetOp], h3, h4⟩

theorem wf_applyOp {b : AudioRingBuffer} (hwf : wf b) (op : RBOp) : wf (applyOp b op) := by
  cases op with
  | write data n => exact wf_writeOp hwf data n
  | read n => exact wf_readOp hwf _ n
  | peek n => exact wf_peekOp hwf _ n
  | skip n => exact wf_skipOp hwf n
  | reset => exact wf_resetOp hwf

theorem wf_runOps {b : AudioRingBuffer} (hwf : wf b) (ops : List RBOp) : wf (runOps b ops) := by
  induction ops generalizing b with
  | nil => exact hwf
  | cons op rest ih => exact ih (wf_applyOp hwf op)

/-! ### The FIFO view: pending frames under write and read -/

theorem writeOp_pending_old {b : AudioRingBuffer} (hwf : wf b) (data : Nat → Int) (n : Nat)
    {i ch : Nat} (hi : i < availableFrames b) (hch : ch < b.channelCount) :
    pendingSample (writeOp b data n).2 i ch = pendingSample b i ch := by
  have hs := bufferSize_pow hwf
  have havail := availableFrames_eq hwf
  have hfree := freeFrames_eq hwf
  have hcount := writeOp_count b data n
  obtain ⟨hwf1, hwf2, hwf3, hwf4⟩ := hwf
  unfold pendingSample
  rw [writeOp_readIndex, writeOp_bufferSize, writeOp_channelCount, writeOp_buf,
    and_mask_eq_mod hs]
  apply writeFrames_miss data b.buf hs
  intro j hj
  rw [frame_index_div _ _ hch]
  intro hmod
  have hspos : 0 < b.bufferSize := bufferSize_pos ⟨hwf1, hwf2, hwf3, hwf4⟩
  have : b.readIndex + i = b.writeIndex + j :=
    mod_inj_interval (show b.readIndex ≤ b.readIndex + i by omega)
      (show b.readIndex + i < b.readIndex + b.bufferSize by omega)
      (show b.readIndex ≤ b.writeIndex + j by omega)
      (show b.writeIndex + j < b.readIndex + b.bufferSize by omega) hmod
  omega

theorem writeOp_pending_new {b : AudioRingBuffer} (hwf : wf b) (data : Nat → Int) (n : Nat)
    {i ch : Nat} (hi : i < (writeOp b data n).1) (hch : ch < b.channelCount) :
    pendingSample (writeOp b data n).2 (availableFrames b + i) ch
      = data (i * b.channelCount + ch) := by
  have hs := bufferSize_pow hwf
  have havail := availableFrames_eq hwf
  have hfree := freeFrames_eq hwf
  have hcount := writeOp_count b data n
  obtain ⟨hwf1, hwf2, hwf3, hwf4⟩ := hwf
  unfold pendingSample
  rw [writeOp_readIndex, writeOp_bufferSize, writeOp_channelCount, writeOp_buf,
    and_mask_eq_mod hs]
  have hidx : b.readIndex + (availableFrames b + i) = b.writeIndex + i := by omega
  rw [hidx]
  exact writeFrames_hit data b.buf hs (by omega) (by omega) hch

theorem readOp_pending_shift (b : AudioRingBuffer) (data : Nat → Int) (n : Nat)
    (i ch : Nat) :
    pendingSample (readOp b data n).2.2 i ch
      = pendingSample b ((readOp b data n).1 + i) ch := by
  unfold pendingSample
  rw [readOp_readIndex, readOp_bufferSize, readOp_channelCount, readOp_buf,
    Nat.add_assoc]

theorem writeOp_avail {b : AudioRingBuffer} (hwf : wf b) (data : Nat → Int) (n : Nat) :
    availableFrames (writeOp b data n).2 = availableFrames b + (writeOp b data n).1 := by
  have havail := availableFrames_eq hwf
  have havail2 := availableFrames_eq (wf_writeOp hwf data n)
  have hfree := freeFrames_eq hwf
  have hcount := writeOp_count b data n
  have hw := writeOp_writeIndex b data n
  have hr := writeOp_readIndex b data n
  obtain ⟨hwf1, hwf2, hwf3, hwf4⟩ := hwf
  omega

theorem readOp_avail {b : AudioRingBuffer} (hwf : wf b) (data : Nat → Int) (n : Nat) :
    availableFrames (readOp b data n).2.2 = availableFrames b - (readOp b data n).1 := by
  have havail := availableFrames_eq hwf
  have havail2 := availableFrames_eq (wf_readOp hwf data n)
  have hcount := readOp_count b data n
  have hw := readOp_writeIndex b data n
  have hr := readOp_readIndex b data n
  obtain ⟨hwf1, hwf2, hwf3, hwf4⟩ := hwf
  omega

/-! ### Invariance of the fixed fields under the operation sequence -/

theorem applyOp_channelCount (b : AudioRingBuffer) (op : RBOp) :
    (applyOp b op).channelCount = b.channelCount := by
  cases op with
  | write data n => exact writeOp_channelCount b data n
  | read n => exact readOp_channelCount b _ n
  | peek n => rw [applyOp, peekOp_state]
  | skip n => exact skipOp_channelCount b n
  | reset => rfl

theorem applyOp_bufferSize (b : AudioRingBuffer) (op : RBOp) :
    (applyOp b op).bufferSize = b.bufferSize := by
  cases op with
  | write data n => exact writeOp_bufferSize b data n
  | read n => exact readOp_bufferSize b _ n
  | peek n => rw [applyOp, peekOp_state]
  | skip n => exact skipOp_bufferSize b n
  | reset => rfl

theorem runOps_channelCount (b : AudioRingBuffer) (ops : List RBOp) :
    (runOps b ops).channelCount = b.channelCount := by
  induction ops generalizing b with
  | nil => rfl
  | cons op rest ih => rw [runOps, List.foldl_cons, ← runOps, ih, applyOp_channelCount]

theorem runOps_bufferSize (b : AudioRingBuffer) (ops : List RBOp) :
    (runOps b ops).bufferSize = b.bufferSize := by
  induction ops generalizing b with
  | nil => rfl
  | cons op rest ih => rw [runOps, List.foldl_cons, ← runOps, ih, applyOp_bufferSize]

/-! ### Claim theorems -/

/-- C2.  Read underrun policy: for every buffer state and every requested
`frameCount`, `read` returns `toRead = min(frameCount, availableFrames())`,
copies exactly `toRead` frames (the oldest pending ones) into `data`, fills
the remaining `frameCount - toRead` frames of `data` with all-zero samples,
and advances `readCursor` by exactly `toRead`, changing nothing else; the
output region `[0, frameCount*N)` is fully determined (never uninitialized
or repeated data). -/
theorem spec_C2 (b : AudioRingBuffer) (data : Nat → Int) (n : Nat) :
    (readOp b data n).1 = min n (availableFrames b) ∧
    (readOp b data n).2.2.readIndex = b.readIndex + (readOp b data n).1 ∧
    (readOp b data n).2.2.writeIndex = b.writeIndex ∧
    (readOp b data n).2.2.buf = b.buf ∧
    (∀ i ch, i < (readOp b data n).1 → ch < b.channelCount →
      (readOp b data n).2.1 (i * b.channelCount + ch) = pendingSample b i ch) ∧
    ∀ idx, (readOp b data n).1 * b.channelCount ≤ idx → idx < n * b.channelCount →
      (readOp b data n).2.1 idx = 0 := by
  refine ⟨readOp_count b data n, readOp_readIndex b data n, readOp_writeIndex b data n,
    readOp_buf b data n, ?_, ?_⟩
  · intro i ch hi hch
    rw [readOp_count] at hi
    exact readOp_out_copied b data n hi hch
  · intro idx hlo hhi
    rw [readOp_count] at hlo
    exact readOp_out_fill b data n hlo hhi

/-- C3.  Write overrun policy: `write` returns
`toWrite = min(frameCount, freeFrames())`, stores exactly the first `toWrite`
frames of `data` at ring positions `(writeCursor + i) mod capacity`, advances
`writeCursor` by exactly `toWrite` and changes nothing else; every other
store position — in particular every not-yet-read frame — is untouched, so
the dropped tail of `data` never enters the store. -/
theorem spec_C3 (b : AudioRingBuffer) (data : Nat → Int) (n : Nat) (hwf : wf b) :
    (writeOp b data n).1 = min n (freeFrames b) ∧
    (writeOp b data n).2.writeIndex = b.writeIndex + (writeOp b data n).1 ∧
    (writeOp b data n).2.readIndex = b.readIndex ∧
    (writeOp b data n).2.bufferSize = b.bufferSize ∧
    (writeOp b data n).2.channelCount = b.channelCount ∧
    (∀ i ch, i < (writeOp b data n).1 → ch < b.channelCount →
      (writeOp b data n).2.buf ((b.writeIndex + i) % b.bufferSize * b.channelCount + ch)
        = data (i * b.channelCount + ch)) ∧
    (∀ pos ch, pos < b.bufferSize → ch < b.channelCount →
      (∀ i, i < (writeOp b data n).1 → pos ≠ (b.writeIndex + i) % b.bufferSize) →
      (writeOp b data n).2.buf (pos * b.channelCount + ch)
        = b.buf (pos * b.channelCount + ch)) ∧
    ∀ i ch, i < availableFrames b → ch < b.channelCount →
      pendingSample (writeOp b data n).2 i ch = pendingSample b i ch := by
  have hs := bufferSize_pow hwf
  have hfree := freeFrames_eq hwf
  have havail := availableFrames_eq hwf
  have hcount := writeOp_count b data n
  refine ⟨hcount, writeOp_writeIndex b data n, writeOp_readIndex b data n,
    writeOp_bufferSize b data n, writeOp_channelCount b data n, ?_, ?_, ?_⟩
  · intro i ch hi hch
    rw [writeOp_buf]
    exact writeFrames_hit data b.buf hs (by omega) hi hch
  · intro pos ch hpos hch hout
    rw [writeOp_buf]
    apply writeFrames_miss data b.buf hs
    intro i hi
    rw [frame_index_div _ _ hch]
    exact hout i hi
  · intro i ch hi hch
    exact writeOp_pending_old hwf data n hi hch

/-- C7.  Peek frame effect: `peek` returns `min(frameCount, availableFrames())`,
copies exactly that many frames into `data` — the same samples an immediately
following `read` of the same count would deliver — leaves the buffer state
completely unchanged, and does not touch `data` at or beyond the returned
frame count (no silence fill). -/
theorem spec_C7 (b : AudioRingBuffer) (data : Nat → Int) (n : Nat)
    (hcc : 0 < b.channelCount) :
    (peekOp b data n).1 = min n (availableFrames b) ∧
    (peekOp b data n).2.2 = b ∧
    (∀ i ch, i < (peekOp b data n).1 → ch < b.channelCount →
      (peekOp b data n).2.1 (i * b.channelCount + ch) = pendingSample b i ch) ∧
    (∀ idx, (peekOp b data n).1 * b.channelCount ≤ idx →
      (peekOp b data n).2.1 idx = data idx) ∧
    ∀ idx, idx < (peekOp b data n).1 * b.channelCount →
      (peekOp b data n).2.1 idx = (readOp b data n).2.1 idx := by
  refine ⟨peekOp_count b data n, peekOp_state b data n, ?_, ?_, ?_⟩
  · intro i ch hi hch
    rw [peekOp_count] at hi
    exact peekOp_out_copied b data n hi hch
  · intro idx h
    rw [peekOp_count] at h
    exact peekOp_out_beyond b data n hcc h
  · intro idx h
    rw [peekOp_count] at h
    rw [peekOp_eq, readOp_eq]
    dsimp only
    simp only [silenceFill]
    rw [if_neg (by omega)]

/-- C8.  Reset postcondition: `reset` zeroes both cursors and every sample of
the store; afterwards `availableFrames()` is 0 and a read with nothing
written in between returns count 0 with the full requested region filled
with silence. -/
theorem spec_C8 (b : AudioRingBuffer) (data : Nat → Int) (n : Nat) :
    (resetOp b).writeIndex = 0 ∧
    (resetOp b).readIndex = 0 ∧
    (∀ idx, idx < b.bufferSize * b.channelCount → (resetOp b).buf idx = 0) ∧
    availableFrames (resetOp b) = 0 ∧
    (readOp (resetOp b) data n).1 = 0 ∧
    ∀ idx, idx < n * b.channelCount → (readOp (resetOp b) data n).2.1 idx = 0 := by
  have havail : availableFrames (resetOp b) = 0 := rfl
  refine ⟨rfl, rfl, ?_, havail, ?_, ?_⟩
  · intro idx hidx
    show (if idx < b.bufferSize * b.channelCount then 0 else b.buf idx) = 0
    rw [if_pos hidx]
  · rw [readOp_count, havail, Nat.min_zero]
  · intro idx hidx
    apply readOp_out_fill
    · rw [havail, Nat.min_zero, Nat.zero_mul]
      exact Nat.zero_le idx
    · exact hidx

/-- C10.  Degenerate-input guards of the C interface: with a null buffer, a
null data pointer, or `frameCount = 0`, `Write`/`Read`/`Peek` return 0 and
`Skip` returns, all leaving the buffer state and the caller's data array
completely untouched (in particular, a read with `frameCount = 0` performs
no silence fill). -/
theorem spec_C10 (buffer : Option AudioRingBuffer) (data : Option (Nat → Int)) (n : Nat)
    (h : buffer = none ∨ data = none ∨ n = 0) :
    AudioRingBuffer_Write buffer data n = (0, buffer) ∧
    AudioRingBuffer_Read buffer data n = (0, data, buffer) ∧
    AudioRingBuffer_Peek buffer data n = (0, data, buffer) ∧
    (buffer = none ∨ n = 0 → AudioRingBuffer_Skip buffer n = buffer) := by
  cases buffer with
  | none => cases data <;> exact ⟨rfl, rfl, rfl, fun _ => rfl⟩
  | some b =>
    have hskip : some b = none ∨ n = 0 → AudioRingBuffer_Skip (some b) n = some b := by
      rintro (hs | hs)
      · exact absurd hs (by simp)
      · subst hs
        rfl
    cases data with
    | none =>
      rcases h with h | h | h
      · exact absurd h (by simp)
      · exact ⟨rfl, rfl, rfl, hskip⟩
      · subst h
        exact ⟨rfl, rfl, rfl, hskip⟩
    | some d =>
      rcases h with h | h | h
      · exact absurd h (by simp)
      · exact absurd h (by simp)
      · subst h
        exact ⟨rfl, rfl, rfl, hskip⟩

/-- C6.  Cursor invariant: after any sequence of write/read/peek/skip/reset
operations on a freshly created buffer, `readCursor ≤ writeCursor`,
`writeCursor - readCursor ≤ capacity`, `availableFrames()` equals the cursor
difference, `freeFrames()` equals capacity minus available, and the channel
count and capacity fixed at construction never change. -/
theorem spec_C6 (req cc : Nat) (hreq : req ≤ 2 ^ 31) (ops : List RBOp) :
    (runOps (AudioRingBuffer_Create req cc) ops).readIndex
      ≤ (runOps (AudioRingBuffer_Create req cc) ops).writeIndex ∧
    (runOps (AudioRingBuffer_Create req cc) ops).writeIndex
        - (runOps (AudioRingBuffer_Create req cc) ops).readIndex
      ≤ (runOps (AudioRingBuffer_Create req cc) ops).bufferSize ∧
    availableFrames (runOps (AudioRingBuffer_Create req cc) ops)
      = (runOps (AudioRingBuffer_Create req cc) ops).writeIndex
        - (runOps (AudioRingBuffer_Create req cc) ops).readIndex ∧
    freeFrames (runOps (AudioRingBuffer_Create req cc) ops)
      = (runOps (AudioRingBuffer_Create req cc) ops).bufferSize
        - availableFrames (runOps (AudioRingBuffer_Create req cc) ops) ∧
    (runOps (AudioRingBuffer_Create req cc) ops).channelCount = cc ∧
    (runOps (AudioRingBuffer_Create req cc) ops).bufferSize = roundUpPow2 req := by
  have hwf := wf_runOps (wf_create req cc hreq) ops
  have havail := availableFrames_eq hwf
  have hfree := freeFrames_eq hwf
  obtain ⟨h1, h2, h3, h4⟩ := hwf
  refine ⟨h1, h2, havail, by omega, ?_, ?_⟩
  · rw [runOps_channelCount]
    rfl
  · rw [runOps_bufferSize]
    rfl

/-- C1.  FIFO correctness: a write appends its accepted frames behind the
pending ones without disturbing them (per-channel interleaving preserved); a
read delivers the oldest pending frames in write order and shifts the rest
forward; consequently writing `W ≤ capacity` frames into an empty buffer and
immediately reading `W` frames reproduces the written samples exactly.
Since `wf` is preserved by every operation, this holds along any
single-threaded call sequence, including after cursor wraparound. -/
theorem spec_C1 (b : AudioRingBuffer) (data out0 : Nat → Int) (n m : Nat)
    (hwf : wf b) (hcc : 0 < b.channelCount) :
    (∀ i ch, i < availableFrames b → ch < b.channelCount →
      pendingSample (writeOp b data n).2 i ch = pendingSample b i ch) ∧
    (∀ i ch, i < (writeOp b data n).1 → ch < b.channelCount →
      pendingSample (writeOp b data n).2 (availableFrames b + i) ch
        = data (i * b.channelCount + ch)) ∧
    (readOp b out0 m).1 = min m (availableFrames b) ∧
    (∀ i ch, i < (readOp b out0 m).1 → ch < b.channelCount →
      (readOp b out0 m).2.1 (i * b.channelCount + ch) = pendingSample b i ch) ∧
    (∀ i ch, pendingSample (readOp b out0 m).2.2 i ch
      = pendingSample b ((readOp b out0 m).1 + i) ch) ∧
    (availableFrames b = 0 → n ≤ b.bufferSize →
      (writeOp b data n).1 = n ∧
      (readOp (writeOp b data n).2 out0 n).1 = n ∧
      ∀ idx, idx < n * b.channelCount →
        (readOp (writeOp b data n).2 out0 n).2.1 idx = data idx) := by
  refine ⟨fun i ch hi hch => writeOp_pending_old hwf data n hi hch,
    fun i ch hi hch => writeOp_pending_new hwf data n hi hch,
    readOp_count b out0 m,
    ?_, fun i ch => readOp_pending_shift b out0 m i ch, ?_⟩
  · intro i ch hi hch
    rw [readOp_count] at hi
    exact readOp_out_copied b out0 m hi hch
  · intro h0 hn
    have hfree := freeFrames_eq hwf
    have havail := availableFrames_eq hwf
    have hwcount : (writeOp b data n).1 = n := by
      have := writeOp_count b data n
      omega
    have hwf2 := wf_writeOp hwf data n
    have havail2 : availableFrames (writeOp b data n).2 = n := by
      have := writeOp_avail hwf data n
      omega
    have hcc2 : 0 < (writeOp b data n).2.channelCount := by
      rw [writeOp_channelCount]
      exact hcc
    have hrcount : (readOp (writeOp b data n).2 out0 n).1 = n := by
      rw [readOp_count, havail2, Nat.min_self]
    refine ⟨hwcount, hrcount, ?_⟩
    intro idx hidx
    have hccb : (writeOp b data n).2.channelCount = b.channelCount :=
      writeOp_channelCount b data n
    have hch : idx % b.channelCount < b.channelCount := Nat.mod_lt idx hcc
    have hi : idx / b.channelCount < n := by
      rw [Nat.div_lt_iff_lt_mul hcc]
      exact hidx
    have hsplit : idx / b.channelCount * b.channelCount + idx % b.channelCount = idx := by
      rw [Nat.mul_comm]
      exact Nat.div_add_mod idx b.channelCount
    have hcopy :
        (readOp (writeOp b data n).2 out0 n).2.1
            (idx / b.channelCount * b.channelCount + idx % b.channelCount)
          = pendingSample (writeOp b data n).2 (idx / b.channelCount)
              (idx % b.channelCount) := by
      have hi2 : idx / b.channelCount
          < min n (availableFrames (writeOp b data n).2) := by
        rw [havail2, Nat.min_self]
        exact hi
      have hstep := readOp_out_copied (writeOp b data n).2 out0 n
        hi2 (show idx % b.channelCount < (writeOp b data n).2.channelCount by
          rw [hccb]; exact hch)
      rwa [hccb] at hstep
    have hnew :
        pendingSample (writeOp b data n).2 (idx / b.channelCount) (idx % b.channelCount)
          = data (idx / b.channelCount * b.channelCount + idx % b.channelCount) := by
      have := writeOp_pending_new hwf data n
        (show idx / b.channelCount < (writeOp b data n).1 by omega) hch
      rwa [h0, Nat.zero_add] at this
    rw [← hsplit, hcopy, hnew]

/-- C4 counterexample: the driver-internal `RingBuffer` constructor of
`AudiDeckDriver.cpp` does not round the requested capacity up: requesting
100 frames realizes exactly 100, not the smallest power of two ≥ 100
(which is 128, as `roundUpPow2` — the round-up loop of the other two
constructors — computes). -/
theorem spec_C4_counterexample :
    (RingBuffer.create 100 2).mFrames = 100 ∧
    roundUpPow2 100 = 128 ∧
    (RingBuffer.create 100 2).mFrames ≠ roundUpPow2 100 := by
  exact ⟨rfl, by decide, by decide⟩

/-- C4 amended: for any requested capacity (up to `2 ^ 31`, the uint32 range
on which the round-up loop terminates), `AudioRingBuffer_Create` and the
`AudioRingBuffer.hpp` constructor realize the smallest power of two ≥ the
request, never 0, with a zero-initialized store and both cursors 0; the
driver-internal `RingBuffer` constructor instead keeps the requested
capacity exactly as given (also with zero store and cursors). -/
theorem spec_C4_amended (req cc : Nat) (hreq : req ≤ 2 ^ 31) :
    (AudioRingBuffer_Create req cc).bufferSize = roundUpPow2 req ∧
    (∃ k, (AudioRingBuffer_Create req cc).bufferSize = 2 ^ k) ∧
    req ≤ (AudioRingBuffer_Create req cc).bufferSize ∧
    0 < (AudioRingBuffer_Create req cc).bufferSize ∧
    (∀ j, req ≤ 2 ^ j → (AudioRingBuffer_Create req cc).bufferSize ≤ 2 ^ j) ∧
    (AudioRingBuffer_Create req cc).bufferSize < 2 ^ 32 ∧
    (AudioRingBuffer_Create req cc).channelCount = cc ∧
    (AudioRingBuffer_Create req cc).writeIndex = 0 ∧
    (AudioRingBuffer_Create req cc).readIndex = 0 ∧
    (∀ idx, (AudioRingBuffer_Create req cc).buf idx = 0) ∧
    (AudioRingBufferClass.create req cc).mBufferSize = roundUpPow2 req ∧
    (AudioRingBufferClass.create req cc).mWriteIndex = 0 ∧
    (AudioRingBufferClass.create req cc).mReadIndex = 0 ∧
    (∀ idx, (AudioRingBufferClass.create req cc).mBuffer idx = 0) ∧
    (RingBuffer.create req cc).mFrames = req ∧
    (RingBuffer.create req cc).mWritePos = 0 ∧
    (RingBuffer.create req cc).mReadPos = 0 ∧
    (∀ idx, (RingBuffer.create req cc).mBuffer idx = 0) := by
  have h32 : roundUpPow2 req < 2 ^ 32 := by
    have := roundUpPow2_min req 31 hreq
    have h2 : (2 : Nat) ^ 31 < 2 ^ 32 := by norm_num
    omega
  exact ⟨rfl, roundUpPow2_pow req, roundUpPow2_ge req, roundUpPow2_pos req,
    fun j hj => roundUpPow2_min req j hj, h32, rfl, rfl, rfl, fun _ => rfl,
    rfl, rfl, rfl, fun _ => rfl, rfl, rfl, rfl, fun _ => rfl⟩

/-! ### The concrete scenario of spec §8 (claim C5) -/

/-- The 128 distinct frames written first in the scenario: frame i = [i, -i]. -/
def scenarioData1 : Nat → Int :=
  fun idx => if idx % 2 = 0 then Int.ofNat (idx / 2) else -Int.ofNat (idx / 2)

/-- The 80 frames offered by the second write (distinct from the first
batch): frame i = [1000 + i, -(1000 + i)]. -/
def scenarioData2 : Nat → Int :=
  fun idx => if idx % 2 = 0 then Int.ofNat (1000 + idx / 2) else -Int.ofNat (1000 + idx / 2)

def scenarioB0 : AudioRingBuffer := AudioRingBuffer_Create 100 2

def scenarioW1 : Nat × AudioRingBuffer := writeOp scenarioB0 scenarioData1 128

def scenarioR1 : Nat × (Nat → Int) × AudioRingBuffer :=
  readOp scenarioW1.2 (fun _ => 55) 64

def scenarioW2 : Nat × AudioRingBuffer := writeOp scenarioR1.2.2 scenarioData2 80

def scenarioR2 : Nat × (Nat → Int) × AudioRingBuffer :=
  readOp scenarioW2.2 (fun _ => 55) 100

set_option maxRecDepth 100000 in
/-- C5 counterexample: the scenario's final step is wrong in the spec.
After read-64 (leaving 64 pending) and the second write of 64 accepted
frames, 128 frames are available, so the final `read(100)` returns 100
frames — not 64 — and its tail is real data (frame 99 is `[1035, -1035]`),
not silence.  All earlier steps match the spec. -/
theorem spec_C5_counterexample :
    scenarioB0.bufferSize = 128 ∧
    scenarioW1.1 = 128 ∧
    scenarioR1.1 = 64 ∧
    availableFrames scenarioR1.2.2 = 64 ∧
    freeFrames scenarioR1.2.2 = 64 ∧
    scenarioW2.1 = 64 ∧
    availableFrames scenarioW2.2 = 128 ∧
    scenarioR2.1 = 100 ∧
    scenarioR2.1 ≠ 64 ∧
    scenarioR2.2.1 (99 * 2) ≠ 0 := by
  decide

set_option maxRecDepth 100000 in
/-- C5 amended: capacity request 100 with 2 channels realizes 128; writing
128 distinct frames (frame i = [i, -i]) returns 128; reading 64 returns
frames [0,-0]..[63,-63] and `availableFrames()` then reports 64; writing 80
more returns 64 (`freeFrames()` = 64) with the last 16 source frames
discarded; the subsequent read of 100 returns 100 (128 frames were
available): frames 64..127 of the first write followed by frames 0..35 of
the second write, with no silence fill, leaving 28 frames available. -/
theorem spec_C5_amended :
    scenarioB0.bufferSize = 128 ∧
    scenarioW1.1 = 128 ∧
    scenarioR1.1 = 64 ∧
    (∀ i, i < 64 → ∀ ch, ch < 2 →
      scenarioR1.2.1 (i * 2 + ch) = scenarioData1 (i * 2 + ch)) ∧
    availableFrames scenarioR1.2.2 = 64 ∧
    freeFrames scenarioR1.2.2 = 64 ∧
    scenarioW2.1 = 64 ∧
    scenarioR2.1 = 100 ∧
    (∀ i, i < 64 → ∀ ch, ch < 2 →
      scenarioR2.2.1 (i * 2 + ch) = scenarioData1 ((64 + i) * 2 + ch)) ∧
    (∀ i, i < 36 → ∀ ch, ch < 2 →
      scenarioR2.2.1 ((64 + i) * 2 + ch) = scenarioData2 (i * 2 + ch)) ∧
    availableFrames scenarioR2.2.2 = 28 := by
  decide

/-! ### Witness fixtures and witnesses -/

/-- A small concrete buffer (capacity 4, 2 channels) used by the witnesses. -/
def rbW : AudioRingBuffer := AudioRingBuffer_Create 4 2

/-- Concrete input samples for the witnesses. -/
def dataW : Nat → Int := fun idx => Int.ofNat idx + 1

/-- A concrete pre-filled caller output array for the witnesses. -/
def outW : Nat → Int := fun _ => 7

/-- `rbW` after two frames have been written (a nonempty well-formed state). -/
def rbW2 : AudioRingBuffer := (writeOp rbW dataW 2).2

/-- A concrete operation sequence for the C6 witness. -/
def opsW : List RBOp :=
  [RBOp.write dataW 3, RBOp.read 2, RBOp.skip 1, RBOp.peek 1, RBOp.reset, RBOp.write dataW 5]

/-- Witness for C1 at the concrete nonempty state `rbW2`. -/
theorem spec_C1_witness :
    wf rbW2 ∧ 0 < rbW2.channelCount ∧
    ((∀ i ch, i < availableFrames rbW2 → ch < rbW2.channelCount →
      pendingSample (writeOp rbW2 dataW 3).2 i ch = pendingSample rbW2 i ch) ∧
    (∀ i ch, i < (writeOp rbW2 dataW 3).1 → ch < rbW2.channelCount →
      pendingSample (writeOp rbW2 dataW 3).2 (availableFrames rbW2 + i) ch
        = dataW (i * rbW2.channelCount + ch)) ∧
    (readOp rbW2 outW 2).1 = min 2 (availableFrames rbW2) ∧
    (∀ i ch, i < (readOp rbW2 outW 2).1 → ch < rbW2.channelCount →
      (readOp rbW2 outW 2).2.1 (i * rbW2.channelCount + ch) = pendingSample rbW2 i ch) ∧
    (∀ i ch, pendingSample (readOp rbW2 outW 2).2.2 i ch
      = pendingSample rbW2 ((readOp rbW2 outW 2).1 + i) ch) ∧
    (availableFrames rbW2 = 0 → 3 ≤ rbW2.bufferSize →
      (writeOp rbW2 dataW 3).1 = 3 ∧
      (readOp (writeOp rbW2 dataW 3).2 outW 3).1 = 3 ∧
      ∀ idx, idx < 3 * rbW2.channelCount →
        (readOp (writeOp rbW2 dataW 3).2 outW 3).2.1 idx = dataW idx)) :=
  ⟨by decide, by decide, spec_C1 rbW2 dataW outW 3 2 (by decide) (by decide)⟩

/-- Witness for C3 at the concrete nonempty state `rbW2`. -/
theorem spec_C3_witness :
    wf rbW2 ∧
    ((writeOp rbW2 dataW 5).1 = min 5 (freeFrames rbW2) ∧
    (writeOp rbW2 dataW 5).2.writeIndex = rbW2.writeIndex + (writeOp rbW2 dataW 5).1 ∧
    (writeOp rbW2 dataW 5).2.readIndex = rbW2.readIndex ∧
    (writeOp rbW2 dataW 5).2.bufferSize = rbW2.bufferSize ∧
    (writeOp rbW2 dataW 5).2.channelCount = rbW2.channelCount ∧
    (∀ i ch, i < (writeOp rbW2 dataW 5).1 → ch < rbW2.channelCount →
      (writeOp rbW2 dataW 5).2.buf
          ((rbW2.writeIndex + i) % rbW2.bufferSize * rbW2.channelCount + ch)
        = dataW (i * rbW2.channelCount + ch)) ∧
    (∀ pos ch, pos < rbW2.bufferSize → ch < rbW2.channelCount →
      (∀ i, i < (writeOp rbW2 dataW 5).1 → pos ≠ (rbW2.writeIndex + i) % rbW2.bufferSize) →
      (writeOp rbW2 dataW 5).2.buf (pos * rbW2.channelCount + ch)
        = rbW2.buf (pos * rbW2.channelCount + ch)) ∧
    ∀ i ch, i < availableFrames rbW2 → ch < rbW2.channelCount →
      pendingSample (writeOp rbW2 dataW 5).2 i ch = pendingSample rbW2 i ch) :=
  ⟨by decide, spec_C3 rbW2 dataW 5 (by decide)⟩

/-- Witness for C4 (amended) at request 100 with 2 channels. -/
theorem spec_C4_witness :
    100 ≤ 2 ^ 31 ∧
    ((AudioRingBuffer_Create 100 2).bufferSize = roundUpPow2 100 ∧
    (∃ k, (AudioRingBuffer_Create 100 2).bufferSize = 2 ^ k) ∧
    100 ≤ (AudioRingBuffer_Create 100 2).bufferSize ∧
    0 < (AudioRingBuffer_Create 100 2).bufferSize ∧
    (∀ j, 100 ≤ 2 ^ j → (AudioRingBuffer_Create 100 2).bufferSize ≤ 2 ^ j) ∧
    (AudioRingBuffer_Create 100 2).bufferSize < 2 ^ 32 ∧
    (AudioRingBuffer_Create 100 2).channelCount = 2 ∧
    (AudioRingBuffer_Create 100 2).writeIndex = 0 ∧
    (AudioRingBuffer_Create 100 2).readIndex = 0 ∧
    (∀ idx, (AudioRingBuffer_Create 100 2).buf idx = 0) ∧
    (AudioRingBufferClass.create 100 2).mBufferSize = roundUpPow2 100 ∧
    (AudioRingBufferClass.create 100 2).mWriteIndex = 0 ∧
    (AudioRingBufferClass.create 100 2).mReadIndex = 0 ∧
    (∀ idx, (AudioRingBufferClass.create 100 2).mBuffer idx = 0) ∧
    (RingBuffer.create 100 2).mFrames = 100 ∧
    (RingBuffer.create 100 2).mWritePos = 0 ∧
    (RingBuffer.create 100 2).mReadPos = 0 ∧
    (∀ idx, (RingBuffer.create 100 2).mBuffer idx = 0)) :=
  ⟨by decide, spec_C4_amended 100 2 (by decide)⟩

/-- Witness for C6 at request 100, 2 channels, over the sequence `opsW`. -/
theorem spec_C6_witness :
    100 ≤ 2 ^ 31 ∧
    ((runOps (AudioRingBuffer_Create 100 2) opsW).readIndex
      ≤ (runOps (AudioRingBuffer_Create 100 2) opsW).writeIndex ∧
    (runOps (AudioRingBuffer_Create 100 2) opsW).writeIndex
        - (runOps (AudioRingBuffer_Create 100 2) opsW).readIndex
      ≤ (runOps (AudioRingBuffer_Create 100 2) opsW).bufferSize ∧
    availableFrames (runOps (AudioRingBuffer_Create 100 2) opsW)
      = (runOps (AudioRingBuffer_Create 100 2) opsW).writeIndex
        - (runOps (AudioRingBuffer_Create 100 2) opsW).readIndex ∧
    freeFrames (runOps (AudioRingBuffer_Create 100 2) opsW)
      = (runOps (AudioRingBuffer_Create 100 2) opsW).bufferSize
        - availableFrames (runOps (AudioRingBuffer_Create 100 2) opsW) ∧
    (runOps (AudioRingBuffer_Create 100 2) opsW).channelCount = 2 ∧
    (runOps (AudioRingBuffer_Create 100 2) opsW).bufferSize = roundUpPow2 100) :=
  ⟨by decide, spec_C6 100 2 (by decide) opsW⟩

/-- Witness for C7 at the concrete nonempty state `rbW2`. -/
theorem spec_C7_witness :
    0 < rbW2.channelCount ∧
    ((peekOp rbW2 outW 3).1 = min 3 (availableFrames rbW2) ∧
    (peekOp rbW2 outW 3).2.2 = rbW2 ∧
    (∀ i ch, i < (peekOp rbW2 outW 3).1 → ch < rbW2.channelCount →
      (peekOp rbW2 outW 3).2.1 (i * rbW2.channelCount + ch) = pendingSample rbW2 i ch) ∧
    (∀ idx, (peekOp rbW2 outW 3).1 * rbW2.channelCount ≤ idx →
      (peekOp rbW2 outW 3).2.1 idx = outW idx) ∧
    ∀ idx, idx < (peekOp rbW2 outW 3).1 * rbW2.channelCount →
      (peekOp rbW2 outW 3).2.1 idx = (readOp rbW2 outW 3).2.1 idx) :=
  ⟨by decide, spec_C7 rbW2 outW 3 (by decide)⟩

/-- Witness for C10 with a non-null buffer, non-null data and `frameCount = 0`. -/
theorem spec_C10_witness :
    (some rbW = none ∨ some outW = none ∨ 0 = 0) ∧
    (AudioRingBuffer_Write (some rbW) (some outW) 0 = (0, some rbW) ∧
    AudioRingBuffer_Read (some rbW) (some outW) 0 = (0, some outW, some rbW) ∧
    AudioRingBuffer_Peek (some rbW) (some outW) 0 = (0, some outW, some rbW) ∧
    (some rbW = none ∨ 0 = 0 → AudioRingBuffer_Skip (some rbW) 0 = some rbW)) :=
  ⟨Or.inr (Or.inr rfl), spec_C10 (some rbW) (some outW) 0 (Or.inr (Or.inr rfl))⟩
